import Mathlib

/-!
Shallow embedding of `src/unmarshal.go` (package colly): the reflective
HTML-to-struct decoder built from `UnmarshalHTML`, `unmarshalAttr`,
`unmarshalStruct`, `unmarshalPtr`, `unmarshalSlice` and `getDOMValue`.

The DOM query collaborator (goquery) is embedded through the interface the
decoder consumes: a selection is a list of nodes (goquery `Find` returns a
nil `Nodes` slice exactly when nothing matches, so the empty list models
`newS.Nodes == nil`), a node carries its text content and attribute list,
and `Find` itself is an opaque environment function, since selector
matching semantics are out of scope.

Go reflection is embedded by self-describing values: a `GoVal` carries the
static type information that `reflect.Value` would carry (element type of a
slice, target type of a pointer, the field declarations of a struct), so
that `attrV.Kind()`, `attrV.Type().Elem()` and `reflect.New` are all
expressible. Mutation through the destination pointer is modelled by
returning the updated value together with an optional error, so that
mutations performed before an error is returned persist, exactly as they do
in Go.
-/

namespace Colly

/-- A DOM node as the decoder consumes it: its text content (what goquery
`Text` returns for it) and its attribute list (what `Attr` searches). -/
structure Node where
  text : String
  attrs : List (String × String)
deriving Repr, DecidableEq

/-- goquery `Selection.Attr`: the first attribute with the given key. -/
def Node.attr (n : Node) (name : String) : Option String :=
  n.attrs.lookup name

/-- A goquery selection: its list of matched nodes, in document order.
The empty list models a selection whose `Nodes` slice is nil. -/
abbrev Selection := List Node

/-- The DOM query collaborator: `find s sel` models `s.Find(sel)`.
Selector matching semantics are opaque to the decoder. -/
structure DOMEnv where
  find : Selection → String → Selection

/-- `strings.TrimSpace`: drop leading and trailing whitespace. -/
def trimSpace (s : String) : String :=
  ⟨((s.data.dropWhile Char.isWhitespace).reverse.dropWhile Char.isWhitespace).reverse⟩

/-- `getDOMValue` (src/unmarshal.go:135-141): with an empty `attr`, the
trimmed text of the first matched node (goquery returns empty text for an
empty selection); otherwise the named attribute of the first matched node,
with absence degrading to the empty string. -/
def getDOMValue (s : Selection) (attr : String) : String :=
  if attr = "" then
    trimSpace ((s.head?.map Node.text).getD "")
  else
    ((s.head?.bind fun n => n.attr attr).getD "")

mutual
/-- A Go type, restricted to the kinds the decoder distinguishes:
`String`, `Slice`, `Ptr`, `Struct`, and everything else (`unsupported`,
carrying the type string that `reflect.Value.String` would print). -/
inductive GoType : Type where
  | str : GoType
  | slice : GoType → GoType
  | ptr : GoType → GoType
  | structT : List Field → GoType
  | unsupported : String → GoType
deriving Repr

/-- A struct field declaration: name, `selector` tag, `attr` tag, whether
`CanAddr && CanSet` holds (i.e. the field is exported, the struct being
addressable), and the field type. -/
inductive Field : Type where
  | mk : String → String → String → Bool → GoType → Field
deriving Repr
end

def Field.name : Field → String
  | .mk n _ _ _ _ => n

def Field.selector : Field → String
  | .mk _ s _ _ _ => s

def Field.attrTag : Field → String
  | .mk _ _ a _ _ => a

def Field.settable : Field → Bool
  | .mk _ _ _ b _ => b

def Field.type : Field → GoType
  | .mk _ _ _ _ t => t

/-- A Go value, self-describing in the way `reflect.Value` is: a slice
value knows its element type and whether it is nil, a pointer value knows
its target type and whether it is nil, a struct value carries its field
declarations next to the field values. -/
inductive GoVal : Type where
  | str : String → GoVal
  | sliceV : GoType → Option (List GoVal) → GoVal
  | ptrV : GoType → Option GoVal → GoVal
  | structV : List Field → List GoVal → GoVal
  | unsuppV : String → GoVal
deriving Repr

/-- The errors (and the one reflect panic) the decoder can produce, one
constructor per produce site kind; `message` recovers the source text. -/
inductive GoError : Type where
  | invalidTarget : GoError
  | numFieldPanic : GoError
  | invalidType : String → GoError
  | invalidSliceType : GoError
deriving Repr, DecidableEq

/-- The message of each error as written in the source; `numFieldPanic` is
the reflect runtime panic raised by `NumField` on a non-struct value
(src/unmarshal.go:42), which aborts the call rather than returning. -/
def GoError.message : GoError → String
  | .invalidTarget => "Invalid type or nil-pointer"
  | .numFieldPanic => "reflect: call of reflect.Value.NumField on non-struct Value"
  | .invalidType v => "Invalid type: " ++ v
  | .invalidSliceType => "Invalid slice type"

/-- `reflect.Value.String`: the string itself for a string value, and the
placeholder `<T Value>` otherwise. Only the `unsuppV` case is reachable
from the decoder (the default branch of the kind switch). -/
def GoVal.reflectString : GoVal → String
  | .str s => s
  | .sliceV _ _ => "<slice Value>"
  | .ptrV _ _ => "<ptr Value>"
  | .structV _ _ => "<struct Value>"
  | .unsuppV k => "<" ++ k ++ " Value>"

mutual
/-- The zero value of a type, as produced by `reflect.New(t).Elem()`. -/
def GoType.zero : GoType → GoVal
  | .str => .str ""
  | .slice e => .sliceV e none
  | .ptr t => .ptrV t none
  | .structT fs => .structV fs (zeroFields fs)
  | .unsupported k => .unsuppV k
termination_by structural t => t

/-- Zero values of a struct field list, in declaration order. -/
def zeroFields : List Field → List GoVal
  | [] => []
  | .mk _ _ _ _ t :: fs => GoType.zero t :: zeroFields fs
termination_by structural l => l
end

/-- Scope narrowing shared by `unmarshalStruct` and `unmarshalPtr`
(src/unmarshal.go:81-84, 98-101): an empty selector reuses the current
scope, a non-empty one narrows it with `Find`. -/
def narrowScope (env : DOMEnv) (s : Selection) (selector : String) : Selection :=
  if selector = "" then s else env.find s selector

/-- `unmarshalSlice` (src/unmarshal.go:118-133). `attrV.Pointer() == 0`
holds exactly for a nil slice, which is first replaced by an empty
non-nil slice; the element-kind switch then either appends one extracted
value per node of `s.Find(selector)` (goquery `Each` hands each node to
the callback wrapped in its own selection) or fails with
`"Invalid slice type"` — after the nil initialization has already
happened. -/
def unmarshalSlice (env : DOMEnv) (s : Selection) (selector htmlAttr : String)
    (attrV : GoVal) : GoVal × Option GoError :=
  let v1 := match attrV with
    | .sliceV e none => GoVal.sliceV e (some [])
    | v => v
  match v1 with
  | .sliceV GoType.str (some xs) =>
      (.sliceV GoType.str
        (some (xs ++ (env.find s selector).map fun n => GoVal.str (getDOMValue [n] htmlAttr))),
       none)
  | .sliceV e c => (.sliceV e c, some .invalidSliceType)
  | v => (v, none)

mutual
/-- `unmarshalAttr` (src/unmarshal.go:54-78): reads the field tags and
dispatches on the field kind (the kind of `attrV` always equals the kind
of the declared field type, on which we dispatch). The `Struct` and `Ptr`
branches inline `unmarshalStruct` / `unmarshalPtr` including the recursive
`UnmarshalHTML` call on a freshly allocated instance, whose nil/kind guard
passes trivially; the stand-alone definitions below restate them and are
definitionally equal to these branches. -/
def unmarshalAttr (env : DOMEnv) (s : Selection) (f : Field) (attrV : GoVal) :
    GoVal × Option GoError :=
  match f with
  | .mk _ selector htmlAttr _ t =>
    match t with
    | .slice _ => unmarshalSlice env s selector htmlAttr attrV
    | .str => (.str (getDOMValue (env.find s selector) htmlAttr), none)
    | .structT fs =>
        let newS := narrowScope env s selector
        if newS = [] then (attrV, none)
        else
          match unmarshalFields env newS fs (zeroFields fs) with
          | (_, some e) => (attrV, some e)
          | (vals, none) => (.structV fs vals, none)
    | .ptr e =>
        let newS := narrowScope env s selector
        if newS = [] then (attrV, none)
        else
          match e with
          | .structT fs =>
              match unmarshalFields env newS fs (zeroFields fs) with
              | (_, some err) => (attrV, some err)
              | (vals, none) => (.ptrV (.structT fs) (some (.structV fs vals)), none)
          | _ => (attrV, some .invalidSliceType)
    | .unsupported _ => (attrV, some (.invalidType attrV.reflectString))
termination_by structural f

/-- The field loop of `UnmarshalHTML` (src/unmarshal.go:42-50): fields in
declaration order; unsettable fields are skipped; the first field error
aborts the loop, keeping the updates already made (including the partial
update of the failing field itself) and leaving later fields untouched. -/
def unmarshalFields (env : DOMEnv) (s : Selection) :
    List Field → List GoVal → List GoVal × Option GoError
  | [], _ => ([], none)
  | _ :: _, [] => ([], none)
  | f :: fs, v :: vs =>
    if f.settable = false then
      let r := unmarshalFields env s fs vs
      (v :: r.1, r.2)
    else
      match unmarshalAttr env s f v with
      | (v1, some e) => (v1 :: vs, some e)
      | (v1, none) =>
        let r := unmarshalFields env s fs vs
        (v1 :: r.1, r.2)
termination_by structural fields _vals => fields
end

/-- `unmarshalStruct` (src/unmarshal.go:80-95), stand-alone: narrow the
scope (empty selector reuses it); an empty result leaves the field
untouched with no error; otherwise decode a freshly allocated zero
instance and, on success only, assign the dereferenced copy to the
field. -/
def unmarshalStruct (env : DOMEnv) (s : Selection) (selector : String)
    (fs : List Field) (attrV : GoVal) : GoVal × Option GoError :=
  let newS := narrowScope env s selector
  if newS = [] then (attrV, none)
  else
    match unmarshalFields env newS fs (zeroFields fs) with
    | (_, some e) => (attrV, some e)
    | (vals, none) => (.structV fs vals, none)

/-- `unmarshalPtr` (src/unmarshal.go:97-116), stand-alone: narrow the
scope; an empty result leaves the field untouched with no error — note
this happens before the target-kind check; a non-struct target then fails
with `"Invalid slice type"`; otherwise decode a fresh zero instance and,
on success only, assign the new pointer to the field. -/
def unmarshalPtr (env : DOMEnv) (s : Selection) (selector : String)
    (e : GoType) (attrV : GoVal) : GoVal × Option GoError :=
  let newS := narrowScope env s selector
  if newS = [] then (attrV, none)
  else
    match e with
    | .structT fs =>
        match unmarshalFields env newS fs (zeroFields fs) with
        | (_, some err) => (attrV, some err)
        | (vals, none) => (.ptrV (.structT fs) (some (.structV fs vals)), none)
    | _ => (attrV, some .invalidSliceType)

/-- `UnmarshalHTML` (src/unmarshal.go:32-52): reject a destination that is
not a non-nil pointer; then `rv.Elem().NumField()` panics unless the
pointee is a struct; otherwise run the field loop and return its error,
with the mutations made through the pointer persisting either way. -/
def UnmarshalHTML (env : DOMEnv) (v : GoVal) (s : Selection) :
    GoVal × Option GoError :=
  match v with
  | .ptrV t (some (.structV fields vals)) =>
      let r := unmarshalFields env s fields vals
      (.ptrV t (some (.structV fields r.1)), r.2)
  | .ptrV t (some pv) => (.ptrV t (some pv), some .numFieldPanic)
  | _ => (v, some .invalidTarget)

/-- Observer: is the value a non-nil pointer (`Kind() == Ptr && !IsNil()`). -/
def GoVal.isNonNilRef : GoVal → Bool
  | .ptrV _ (some _) => true
  | _ => false

/-- Observer: is the value a non-nil pointer to a struct value. -/
def GoVal.isRecordRef : GoVal → Bool
  | .ptrV _ (some (.structV _ _)) => true
  | _ => false

/-- Observer: is the value a nil slice (the zero value of a slice type). -/
def GoVal.isNilSlice : GoVal → Bool
  | .sliceV _ none => true
  | _ => false

/-- Observer: the first field value of a record destination (a non-nil
pointer to a struct with at least one field). -/
def GoVal.firstField : GoVal → Option GoVal
  | .ptrV _ (some (.structV _ (v :: _))) => some v
  | _ => none

/-- Observer: the string held by a string value. -/
def GoVal.strVal : GoVal → Option String
  | .str s => some s
  | _ => none

/-- Does `needle` occur inside `hay` as a contiguous substring. -/
def strContains (hay needle : String) : Bool :=
  (List.range (hay.data.length + 1)).any fun i => needle.data.isPrefixOf (hay.data.drop i)

/-! Concrete DOM environments, nodes, field declarations and destination
records used by the counterexamples and witnesses below. -/

/-- A DOM in which every selector matches zero nodes. -/
def envEmpty : DOMEnv := ⟨fun _ _ => []⟩

/-- A node with padded text and two attributes, one with padded value. -/
def nodeHello : Node := ⟨" Hello ", [("href", "u"), ("class", " c1 ")]⟩

/-- A DOM in which every selector matches exactly `nodeHello`. -/
def envHello : DOMEnv := ⟨fun _ _ => [nodeHello]⟩

def fTitle : Field := .mk "Title" "h1" "" true .str

def fTag : Field := .mk "Tag" "span" "" true .str

def fCount : Field := .mk "Count" "p" "" true (.unsupported "int")

def fOther : Field := .mk "Other" "p" "" true (.unsupported "int")

def fLinks : Field := .mk "Links" "a" "href" true (.slice .str)

def fRefInt : Field := .mk "Ref" "a" "" true (.ptr (.unsupported "int"))

/-- A destination as the caller would build it: a non-nil pointer to a
struct with the given fields holding the given values. -/
def mkRec (fs : List Field) (vs : List GoVal) : GoVal :=
  .ptrV (.structT fs) (some (.structV fs vs))

/-- A non-nil pointer to an int: passes the nil/ptr guard, is not a
pointer to a struct. -/
def vPtrInt : GoVal := .ptrV (.unsupported "int") (some (.unsuppV "int"))

def vLinksNil : GoVal := mkRec [fLinks] [.sliceV .str none]

def vRefIntRec : GoVal := mkRec [fRefInt] [.ptrV (.unsupported "int") none]

def vTitlePreset : GoVal := mkRec [fTitle] [.str "preset"]

def vCountRec : GoVal := mkRec [fTitle, fCount, fTag] [.str "", .unsuppV "int", .str ""]

def vOtherRec : GoVal := mkRec [fTitle, fOther, fTag] [.str "", .unsuppV "int", .str ""]

/-! Helper lemmas shared by the claim theorems. -/

/-- Extraction from an empty scope yields the empty string. -/
theorem getDOMValue_nil (a : String) : getDOMValue [] a = "" := by
  unfold getDOMValue
  split <;> rfl

/-- If narrowing cannot produce nodes (the selector finds nothing, and the
scope itself is empty in case the selector is empty), the narrowed scope
is empty. -/
theorem narrowScope_nil {env : DOMEnv} {s : Selection} {sel : String}
    (hsel : sel = "" → s = []) (hfind : env.find s sel = []) :
    narrowScope env s sel = [] := by
  unfold narrowScope
  split
  · exact hsel (by assumption)
  · exact hfind

/-- `unmarshalSlice` either succeeds or fails with the slice-type error. -/
theorem unmarshalSlice_snd (env : DOMEnv) (s : Selection) (sel a : String) (v : GoVal) :
    (unmarshalSlice env s sel a v).2 = none
    ∨ (unmarshalSlice env s sel a v).2 = some GoError.invalidSliceType := by
  unfold unmarshalSlice
  rcases v with _ | ⟨e, c⟩ | ⟨t, c⟩ | ⟨fs, vs⟩ | _ <;>
    first
    | (left; rfl)
    | (rcases e <;> rcases c <;> simp)

/-- The field loop never produces the invalid-target error: that error is
raised only by the top-level nil/pointer guard, never during recursion
(nested calls always receive a freshly allocated non-nil struct pointer). -/
theorem unmarshalFields_ne_invalidTarget (env : DOMEnv) (s : Selection)
    (fs : List Field) (vs : List GoVal) :
    (unmarshalFields env s fs vs).2 ≠ some GoError.invalidTarget := by
  refine unmarshalFields.induct env
    (fun s f v => (unmarshalAttr env s f v).2 ≠ some GoError.invalidTarget)
    (fun s fs vs => (unmarshalFields env s fs vs).2 ≠ some GoError.invalidTarget)
    ?cslice ?cstr ?cs0 ?cserr ?csok ?cp0 ?cperr ?cpok ?cpbad ?cuns
    ?cnil ?cmis ?cskip ?caerr ?caok s fs vs
  case cslice =>
    intro s0 v0 nm sel a st t
    rcases unmarshalSlice_snd env s0 sel a v0 with h | h <;> simp [unmarshalAttr, h]
  case cstr =>
    intro s0 v0 nm sel a st
    simp [unmarshalAttr]
  case cs0 =>
    intro s0 v0 nm sel a st fs0 newS hnew
    simp [unmarshalAttr, if_pos (show narrowScope env s0 sel = [] from hnew)]
  case cserr =>
    intro s0 v0 nm sel a st fs0 newS hnew fst e heq ih
    have he : e ≠ GoError.invalidTarget := by simpa [heq] using ih
    simp [unmarshalAttr, if_neg (show ¬ narrowScope env s0 sel = [] from hnew), heq, he]
  case csok =>
    intro s0 v0 nm sel a st fs0 newS hnew vals heq ih
    simp [unmarshalAttr, if_neg (show ¬ narrowScope env s0 sel = [] from hnew), heq]
  case cp0 =>
    intro s0 v0 nm sel a st e newS hnew
    cases e <;> simp [unmarshalAttr, if_pos (show narrowScope env s0 sel = [] from hnew)]
  case cperr =>
    intro s0 v0 nm sel a st newS hnew fs0 fst e heq ih
    have he : e ≠ GoError.invalidTarget := by simpa [heq] using ih
    simp [unmarshalAttr, if_neg (show ¬ narrowScope env s0 sel = [] from hnew), heq, he]
  case cpok =>
    intro s0 v0 nm sel a st newS hnew fs0 vals heq ih
    simp [unmarshalAttr, if_neg (show ¬ narrowScope env s0 sel = [] from hnew), heq]
  case cpbad =>
    intro s0 v0 nm sel a st e newS hnew hns
    cases e <;>
      simp [unmarshalAttr, if_neg (show ¬ narrowScope env s0 sel = [] from hnew)]
    exact fun h => hns _ rfl
  case cuns =>
    intro s0 v0 nm sel a st k
    simp [unmarshalAttr]
  case cnil =>
    intro s0 vs0
    simp [unmarshalFields]
  case cmis =>
    intro s0 f0 fs0
    simp [unmarshalFields]
  case cskip =>
    intro s0 f0 fs0 v0 vs0 hset ih
    simpa [unmarshalFields, hset] using ih
  case caerr =>
    intro s0 f0 fs0 v0 vs0 hset v1 e heq ih
    have he : e ≠ GoError.invalidTarget := by simpa [heq] using ih
    simp [unmarshalFields, hset, heq, he]
  case caok =>
    intro s0 f0 fs0 v0 vs0 hset v1 heq ih1 ih2
    simpa [unmarshalFields, hset, heq] using ih2

/-- A settable field whose dispatch fails aborts the loop: the failing
field keeps its partial update, later fields keep their old values, and
the error is returned unchanged. -/
theorem unmarshalFields_cons_err (env : DOMEnv) (s : Selection) (f : Field)
    (fs : List Field) (v v1 : GoVal) (vs : List GoVal) (e : GoError)
    (hset : f.settable = true) (hattr : unmarshalAttr env s f v = (v1, some e)) :
    unmarshalFields env s (f :: fs) (v :: vs) = (v1 :: vs, some e) := by
  simp [unmarshalFields, hset, hattr]

/-- Splitting the field loop at a prefix that decodes without error: the
whole loop decodes the prefix, then continues with the rest. -/
theorem unmarshalFields_append_ok (env : DOMEnv) (s : Selection) :
    ∀ (pre : List Field) (preVals : List GoVal) (post : List Field) (postVals : List GoVal),
    preVals.length = pre.length →
    (unmarshalFields env s pre preVals).2 = none →
    unmarshalFields env s (pre ++ post) (preVals ++ postVals)
      = ((unmarshalFields env s pre preVals).1 ++ (unmarshalFields env s post postVals).1,
         (unmarshalFields env s post postVals).2) := by
  intro pre
  induction pre with
  | nil =>
    intro preVals post postVals hlen _
    have hnil : preVals = [] := List.length_eq_zero.mp (by simpa using hlen)
    subst hnil
    simp [unmarshalFields]
  | cons f fs ih =>
    intro preVals post postVals hlen hok
    cases preVals with
    | nil => simp at hlen
    | cons v vs =>
      have hlen2 : vs.length = fs.length := by simpa using hlen
      by_cases hset : f.settable = false
      · have hok2 : (unmarshalFields env s fs vs).2 = none := by
          simpa [unmarshalFields, hset] using hok
        simp [unmarshalFields, hset, ih vs post postVals hlen2 hok2]
      · rcases hA : unmarshalAttr env s f v with ⟨v1, oe⟩
        cases oe with
        | some e =>
          exfalso
          have hbad := hok
          simp [unmarshalFields, hset, hA] at hbad
        | none =>
          have hok2 : (unmarshalFields env s fs vs).2 = none := by
            simpa [unmarshalFields, hset, hA] using hok
          simp [unmarshalFields, hset, hA, ih vs post postVals hlen2 hok2]

/-- Claim C1 (corrected): the claim predicts `InvalidTargetError` for every
destination that is not a non-null reference to a record; but for a
non-null reference to a non-record value (here a pointer to an int) the
code passes the nil/pointer guard and then panics in
`reflect.Value.NumField` instead of returning that error. -/
theorem C1_counterexample :
    ¬ (((UnmarshalHTML envEmpty vPtrInt []).2 = some GoError.invalidTarget) ↔
        vPtrInt.isRecordRef = false) := by decide

/-- Claim C1 (amended): Decode returns `InvalidTargetError` exactly when
the destination is null or not a reference; a non-null reference to a
non-record value instead hits the `NumField` reflect panic. -/
theorem C1_theorem (env : DOMEnv) (v : GoVal) (s : Selection) :
    ((UnmarshalHTML env v s).2 = some GoError.invalidTarget ↔ v.isNonNilRef = false)
    ∧ (v.isNonNilRef = true → v.isRecordRef = false →
        (UnmarshalHTML env v s).2 = some GoError.numFieldPanic) := by
  cases v with
  | str s0 => simp [UnmarshalHTML, GoVal.isNonNilRef, GoVal.isRecordRef]
  | sliceV e c => simp [UnmarshalHTML, GoVal.isNonNilRef, GoVal.isRecordRef]
  | structV fs0 vs0 => simp [UnmarshalHTML, GoVal.isNonNilRef, GoVal.isRecordRef]
  | unsuppV k => simp [UnmarshalHTML, GoVal.isNonNilRef, GoVal.isRecordRef]
  | ptrV t c =>
    cases c with
    | none => simp [UnmarshalHTML, GoVal.isNonNilRef, GoVal.isRecordRef]
    | some pv =>
      cases pv with
      | structV fields vals =>
        simp [UnmarshalHTML, GoVal.isNonNilRef, GoVal.isRecordRef,
          unmarshalFields_ne_invalidTarget env s fields vals]
      | str s0 => simp [UnmarshalHTML, GoVal.isNonNilRef, GoVal.isRecordRef]
      | sliceV e c2 => simp [UnmarshalHTML, GoVal.isNonNilRef, GoVal.isRecordRef]
      | ptrV t2 c2 => simp [UnmarshalHTML, GoVal.isNonNilRef, GoVal.isRecordRef]
      | unsuppV k => simp [UnmarshalHTML, GoVal.isNonNilRef, GoVal.isRecordRef]

/-- Witness for C1 at a concrete input: a non-nil pointer to an int makes
Decode hit the NumField panic. -/
theorem C1_witness :
    (UnmarshalHTML envEmpty vPtrInt []).2 = some GoError.numFieldPanic :=
  (C1_theorem envEmpty vPtrInt []).2 (by decide) (by decide)

/-- Claim C2 (corrected): the claim says a sequence field whose selector
matches zero nodes is left at its zero value, i.e. unset; but the code
unconditionally initializes a nil slice to an empty non-nil slice before
looking at the matches, so the decoded field is set (to an empty
sequence), not unset — though indeed no error is returned. -/
theorem C2_counterexample :
    (UnmarshalHTML envEmpty vLinksNil []).2 = none
    ∧ (UnmarshalHTML envEmpty vLinksNil []).1.firstField.map GoVal.isNilSlice = some false
    ∧ (UnmarshalHTML envEmpty vLinksNil []).1.firstField.map GoVal.isNilSlice
        ≠ vLinksNil.firstField.map GoVal.isNilSlice := by decide

/-- Claim C2 (amended): when a field's selector matches zero nodes no
error is returned; a scalar field is set to the empty string, a nil
sequence field is initialized to an empty non-nil sequence, a non-nil
sequence field is unchanged, and nested by-value and by-reference fields
are left untouched. -/
theorem C2_theorem (env : DOMEnv) (s : Selection) (nm sel a : String) (st : Bool)
    (hfind : env.find s sel = []) (hsel : sel = "" → s = []) :
    (∀ v, unmarshalAttr env s (Field.mk nm sel a st GoType.str) v = (.str "", none))
    ∧ (unmarshalAttr env s (Field.mk nm sel a st (.slice .str)) (.sliceV .str none)
        = (.sliceV .str (some []), none))
    ∧ (∀ xs, unmarshalAttr env s (Field.mk nm sel a st (.slice .str)) (.sliceV .str (some xs))
        = (.sliceV .str (some xs), none))
    ∧ (∀ fs v, unmarshalAttr env s (Field.mk nm sel a st (.structT fs)) v = (v, none))
    ∧ (∀ e v, unmarshalAttr env s (Field.mk nm sel a st (.ptr e)) v = (v, none)) := by
  have hnarrow : narrowScope env s sel = [] := narrowScope_nil hsel hfind
  refine ⟨?_, ?_, ?_, ?_, ?_⟩
  · intro v
    simp [unmarshalAttr, hfind, getDOMValue_nil]
  · simp [unmarshalAttr, unmarshalSlice, hfind]
  · intro xs
    simp [unmarshalAttr, unmarshalSlice, hfind]
  · intro fs v
    simp [unmarshalAttr, if_pos hnarrow]
  · intro e v
    cases e <;> simp [unmarshalAttr, if_pos hnarrow]

/-- Witness for C2 at concrete inputs with an empty DOM. -/
theorem C2_witness :
    unmarshalAttr envEmpty [] (Field.mk "F" "q" "" true GoType.str) (.str "old") = (.str "", none)
    ∧ unmarshalAttr envEmpty [] (Field.mk "F" "q" "" true (.slice .str)) (.sliceV .str none)
        = (.sliceV .str (some []), none)
    ∧ unmarshalAttr envEmpty [] (Field.mk "F" "q" "" true (.ptr (.unsupported "int")))
        (.ptrV (.unsupported "int") none) = (.ptrV (.unsupported "int") none, none) := by
  have h := C2_theorem envEmpty [] "F" "q" "" true rfl (fun _ => rfl)
  exact ⟨h.1 (.str "old"), h.2.1,
    h.2.2.2.2 (.unsupported "int") (.ptrV (.unsupported "int") none)⟩

/-- Claim C3 (confirmed): single-value extraction is a total function
(never an error); with an empty attribute it returns the trimmed text of
the scope's first node, the empty string on an empty scope; with a
non-empty attribute it returns that attribute of the first node, the
empty string when absent or the scope is empty. -/
theorem C3_theorem (a : String) (n : Node) (rest : List Node) :
    getDOMValue [] a = ""
    ∧ getDOMValue (n :: rest) "" = trimSpace n.text
    ∧ (a ≠ "" → getDOMValue (n :: rest) a = (n.attr a).getD "") :=
  ⟨getDOMValue_nil a, by simp [getDOMValue], fun ha => by simp [getDOMValue, ha]⟩

/-- Witness for C3 at a concrete node. -/
theorem C3_witness :
    getDOMValue [] "href" = "" ∧ getDOMValue [nodeHello] "" = "Hello"
    ∧ getDOMValue [nodeHello] "href" = "u" := by
  have h := C3_theorem "href" nodeHello []
  exact ⟨h.1, h.2.1.trans (by decide), (h.2.2 (by decide)).trans (by decide)⟩

/-- Claim C4 (confirmed): sequence decoding appends one extracted value
per matched node, in document order; a nil sequence field is first
initialized to an empty one, a non-nil one is only appended to; the new
length is the old length plus the number of matched nodes. -/
theorem C4_theorem (env : DOMEnv) (s : Selection) (nm sel a : String) (st : Bool)
    (xs : List GoVal) :
    unmarshalAttr env s (Field.mk nm sel a st (.slice .str)) (.sliceV .str (some xs))
      = (.sliceV .str
          (some (xs ++ (env.find s sel).map fun n => GoVal.str (getDOMValue [n] a))), none)
    ∧ unmarshalAttr env s (Field.mk nm sel a st (.slice .str)) (.sliceV .str none)
      = (.sliceV .str
          (some ((env.find s sel).map fun n => GoVal.str (getDOMValue [n] a))), none)
    ∧ (xs ++ (env.find s sel).map fun n => GoVal.str (getDOMValue [n] a)).length
      = xs.length + (env.find s sel).length := by
  refine ⟨by simp [unmarshalAttr, unmarshalSlice], by simp [unmarshalAttr, unmarshalSlice],
    by simp⟩

/-- Claim C5 (corrected): the error for an unsupported field shape is
`"Invalid type: " + attrV.String()`, which mentions the offending field's
type, not its name: decoding a record whose unsupported field is named
`Count` yields a message that does not contain `Count`, and renaming the
field to `Other` yields the identical error. The abort behaviour the
claim also states does hold: the field before is populated, the fields
from the offending one on are untouched. -/
theorem C5_counterexample :
    UnmarshalHTML envHello vCountRec []
      = (mkRec [fTitle, fCount, fTag] [.str "Hello", .unsuppV "int", .str ""],
         some (.invalidType "<int Value>"))
    ∧ strContains (GoError.invalidType "<int Value>").message "Count" = false
    ∧ (UnmarshalHTML envHello vOtherRec []).2 = (UnmarshalHTML envHello vCountRec []).2 :=
  ⟨rfl, by decide, rfl⟩

/-- Claim C5 (amended): a settable field of unsupported shape makes the
loop return the invalid-type error built from the field value's reflect
string (not the field name); fields before it keep their decoded values,
the offending field and every field after it keep their old values. -/
theorem C5_theorem (env : DOMEnv) (s : Selection) (nm sel a k : String)
    (post : List Field) (v : GoVal) (vs : List GoVal)
    (pre : List Field) (preVals : List GoVal)
    (hlen : preVals.length = pre.length)
    (hpre : (unmarshalFields env s pre preVals).2 = none) :
    unmarshalFields env s (pre ++ Field.mk nm sel a true (.unsupported k) :: post)
        (preVals ++ v :: vs)
      = ((unmarshalFields env s pre preVals).1 ++ v :: vs,
         some (.invalidType v.reflectString)) := by
  have hattr : unmarshalAttr env s (Field.mk nm sel a true (.unsupported k)) v
      = (v, some (.invalidType v.reflectString)) := by
    simp [unmarshalAttr]
  have hcons := unmarshalFields_cons_err env s (Field.mk nm sel a true (.unsupported k))
      post v v vs (.invalidType v.reflectString) rfl hattr
  rw [unmarshalFields_append_ok env s pre preVals _ _ hlen hpre, hcons]

/-- Witness for C5: decoding the three-field record against the one-node
DOM populates `Title`, then aborts at `Count` leaving `Tag` untouched. -/
theorem C5_witness :
    unmarshalFields envHello [] [fTitle, fCount, fTag] [.str "", .unsuppV "int", .str ""]
      = ([.str "Hello", .unsuppV "int", .str ""], some (.invalidType "<int Value>")) := by
  have h := C5_theorem envHello [] "Count" "p" "" "int" [fTag] (.unsuppV "int") [.str ""]
      [fTitle] [.str ""] rfl rfl
  exact h

/-- Claim C6 (corrected): the claim says decode outcome is determined by
the record's shape alone, and in particular that a by-reference field
with a non-record target always errors. But `unmarshalPtr` checks the
narrowed scope for emptiness before it checks the target kind, so the
same record decodes successfully against a DOM where the selector matches
nothing and fails against one where it matches a node. -/
theorem C6_counterexample :
    (UnmarshalHTML envEmpty vRefIntRec []).2 ≠ (UnmarshalHTML envHello vRefIntRec []).2
    ∧ (UnmarshalHTML envEmpty vRefIntRec []).2 = none
    ∧ (UnmarshalHTML envHello vRefIntRec []).2 = some GoError.invalidSliceType := by decide

/-- Claim C6 (amended): a by-reference field whose target type is not a
record yields the unsupported-reference-target error exactly when its
narrowed scope matches at least one node; with zero matches the field
decodes successfully (left untouched), so the outcome depends on the DOM
content. -/
theorem C6_theorem (env : DOMEnv) (s : Selection) (sel : String) (e : GoType) (v : GoVal)
    (hns : ∀ fs, e ≠ GoType.structT fs) :
    (narrowScope env s sel = [] → unmarshalPtr env s sel e v = (v, none))
    ∧ (narrowScope env s sel ≠ [] →
        unmarshalPtr env s sel e v = (v, some GoError.invalidSliceType)) := by
  constructor
  · intro h0
    simp [unmarshalPtr, if_pos h0]
  · intro h1
    cases e with
    | structT fs => exact absurd rfl (hns fs)
    | str => simp [unmarshalPtr, if_neg h1]
    | slice e2 => simp [unmarshalPtr, if_neg h1]
    | ptr e2 => simp [unmarshalPtr, if_neg h1]
    | unsupported k => simp [unmarshalPtr, if_neg h1]

/-- Witness for C6: the same pointer-to-int field succeeds on the empty
DOM and fails on the one-node DOM. -/
theorem C6_witness :
    unmarshalPtr envEmpty [] "a" (.unsupported "int") (.ptrV (.unsupported "int") none)
      = (.ptrV (.unsupported "int") none, none)
    ∧ unmarshalPtr envHello [] "a" (.unsupported "int") (.ptrV (.unsupported "int") none)
      = (.ptrV (.unsupported "int") none, some GoError.invalidSliceType) :=
  ⟨(C6_theorem envEmpty [] "a" (.unsupported "int") (.ptrV (.unsupported "int") none)
      (fun _ h => nomatch h)).1 rfl,
   (C6_theorem envHello [] "a" (.unsupported "int") (.ptrV (.unsupported "int") none)
      (fun _ h => nomatch h)).2 (by decide)⟩

/-- Claim C7 (corrected): the claim says a field whose selector matches
zero nodes keeps whatever value the caller stored in it; but a scalar
field is unconditionally overwritten with the extracted value, which is
the empty string when nothing matches: a preset `"preset"` is replaced by
`""`. -/
theorem C7_counterexample :
    (UnmarshalHTML envEmpty vTitlePreset []).2 = none
    ∧ ((UnmarshalHTML envEmpty vTitlePreset []).1.firstField.bind GoVal.strVal) = some ""
    ∧ ((UnmarshalHTML envEmpty vTitlePreset []).1.firstField.bind GoVal.strVal)
        ≠ (vTitlePreset.firstField.bind GoVal.strVal) := by decide

/-- Claim C7 (amended): unsettable fields are skipped unchanged without
error; nested by-value and by-reference fields with an empty narrowed
scope keep the caller's stored value; but a scalar field is always
overwritten with the extracted value (the empty string when the selector
matches nothing). -/
theorem C7_theorem (env : DOMEnv) (s : Selection) :
    (∀ f fs v vs, f.settable = false →
        unmarshalFields env s (f :: fs) (v :: vs)
          = (v :: (unmarshalFields env s fs vs).1, (unmarshalFields env s fs vs).2))
    ∧ (∀ sel fs v, narrowScope env s sel = [] → unmarshalStruct env s sel fs v = (v, none))
    ∧ (∀ sel e v, narrowScope env s sel = [] → unmarshalPtr env s sel e v = (v, none))
    ∧ (∀ nm sel a st v, unmarshalAttr env s (Field.mk nm sel a st GoType.str) v
        = (.str (getDOMValue (env.find s sel) a), none)) := by
  refine ⟨?_, ?_, ?_, ?_⟩
  · intro f fs v vs hset
    simp [unmarshalFields, hset]
  · intro sel fs v h0
    simp [unmarshalStruct, if_pos h0]
  · intro sel e v h0
    simp [unmarshalPtr, if_pos h0]
  · intro nm sel a st v
    simp [unmarshalAttr]

/-- Witness for C7: an unsettable field keeps its value, an unmatched
nested field keeps its value, and a matched-nothing scalar preset is
overwritten with the empty string. -/
theorem C7_witness :
    unmarshalFields envHello [] [Field.mk "Hidden" "h1" "" false GoType.str] [.str "keep"]
      = ([.str "keep"], none)
    ∧ unmarshalStruct envEmpty [] "div" [fTitle] (.structV [fTitle] [.str "keep"])
      = (.structV [fTitle] [.str "keep"], none)
    ∧ unmarshalAttr envEmpty [] (Field.mk "Title" "h1" "" true GoType.str) (.str "preset")
      = (.str "", none) := by
  have h1 := C7_theorem envHello []
  have h2 := C7_theorem envEmpty []
  exact ⟨h1.1 (Field.mk "Hidden" "h1" "" false GoType.str) [] (.str "keep") [] rfl,
    h2.2.1 "div" [fTitle] (.structV [fTitle] [.str "keep"]) rfl,
    h2.2.2.2 "Title" "h1" "" true (.str "preset")⟩

/-- Claim C8 (confirmed): an empty selector reuses the current scope;
nested-record dispatch equals the stand-alone struct/ptr decoding; when
the narrowed scope is non-empty, an error of the recursive decode is
returned unchanged by both variants (the field keeping its old value) and
aborts the field loop, whose error the top level returns unchanged; on
success a by-value field is assigned the plain struct value (a
dereferenced copy) while a by-reference field is assigned a non-nil
pointer to the freshly decoded instance. -/
theorem C8_theorem (env : DOMEnv) (s : Selection) (sel : String) :
    (sel = "" → narrowScope env s sel = s)
    ∧ (∀ nm a st fs v, unmarshalAttr env s (Field.mk nm sel a st (.structT fs)) v
        = unmarshalStruct env s sel fs v)
    ∧ (∀ nm a st e v, unmarshalAttr env s (Field.mk nm sel a st (.ptr e)) v
        = unmarshalPtr env s sel e v)
    ∧ (∀ fs v vals err, narrowScope env s sel ≠ [] →
        unmarshalFields env (narrowScope env s sel) fs (zeroFields fs) = (vals, some err) →
        unmarshalStruct env s sel fs v = (v, some err)
        ∧ unmarshalPtr env s sel (.structT fs) v = (v, some err))
    ∧ (∀ fs v vals, narrowScope env s sel ≠ [] →
        unmarshalFields env (narrowScope env s sel) fs (zeroFields fs) = (vals, none) →
        unmarshalStruct env s sel fs v = (.structV fs vals, none)
        ∧ unmarshalPtr env s sel (.structT fs) v
            = (.ptrV (.structT fs) (some (.structV fs vals)), none))
    ∧ (∀ f rest v vs v1 err, f.settable = true →
        unmarshalAttr env s f v = (v1, some err) →
        unmarshalFields env s (f :: rest) (v :: vs) = (v1 :: vs, some err))
    ∧ (∀ t fields vals,
        (UnmarshalHTML env (.ptrV t (some (.structV fields vals))) s).2
          = (unmarshalFields env s fields vals).2) := by
  refine ⟨?_, ?_, ?_, ?_, ?_, ?_, ?_⟩
  · intro h
    simp [narrowScope, h]
  · intro nm a st fs v
    rfl
  · intro nm a st e v
    cases e <;> rfl
  · intro fs v vals err h1 heq
    constructor <;> simp [unmarshalStruct, unmarshalPtr, if_neg h1, heq]
  · intro fs v vals h1 heq
    constructor <;> simp [unmarshalStruct, unmarshalPtr, if_neg h1, heq]
  · exact fun f rest v vs v1 err hset hattr =>
      unmarshalFields_cons_err env s f rest v v1 vs err hset hattr
  · intro t fields vals
    rfl

/-- Witness for C8: a nested error surfaces unchanged from the struct
variant; the ptr variant assigns a pointer to the decoded instance; an
empty selector narrows the empty root scope to itself. -/
theorem C8_witness :
    unmarshalStruct envHello [] "div" [fCount] (.structV [fCount] [.unsuppV "int"])
      = (.structV [fCount] [.unsuppV "int"], some (.invalidType "<int Value>"))
    ∧ unmarshalPtr envHello [] "div" (.structT [fTitle]) (.ptrV (.structT [fTitle]) none)
      = (.ptrV (.structT [fTitle]) (some (.structV [fTitle] [.str "Hello"])), none)
    ∧ narrowScope envHello [] "" = [] := by
  have h := C8_theorem envHello [] "div"
  have h0 := C8_theorem envHello [] ""
  refine ⟨?_, ?_, h0.1 rfl⟩
  · exact (h.2.2.2.1 [fCount] (.structV [fCount] [.unsuppV "int"]) [.unsuppV "int"]
      (.invalidType "<int Value>") (by decide) rfl).1
  · exact (h.2.2.2.2.1 [fTitle] (.ptrV (.structT [fTitle]) none) [.str "Hello"]
      (by decide) rfl).2

/-- Claim C9 (confirmed): for a nil sequence field with unsupported (non
scalar-text) element shape, the field is first initialized to an empty
non-nil sequence and only then the element-shape error is returned, so
the field is not left unchanged on this error path. -/
theorem C9_theorem (env : DOMEnv) (s : Selection) (sel a : String) (e : GoType)
    (he : e ≠ GoType.str) :
    unmarshalSlice env s sel a (.sliceV e none)
      = (.sliceV e (some []), some GoError.invalidSliceType)
    ∧ (GoVal.sliceV e (some [])).isNilSlice = false
    ∧ (∀ nm, unmarshalFields env s [Field.mk nm sel a true (.slice e)] [.sliceV e none]
        = ([.sliceV e (some [])], some GoError.invalidSliceType)) := by
  cases e with
  | str => exact absurd rfl he
  | slice e2 => exact ⟨rfl, rfl, fun nm => rfl⟩
  | ptr e2 => exact ⟨rfl, rfl, fun nm => rfl⟩
  | structT fs => exact ⟨rfl, rfl, fun nm => rfl⟩
  | unsupported k => exact ⟨rfl, rfl, fun nm => rfl⟩

/-- Witness for C9 at a concrete slice-of-int field. -/
theorem C9_witness :
    unmarshalSlice envEmpty [] "li" "" (.sliceV (.unsupported "int") none)
      = (.sliceV (.unsupported "int") (some []), some GoError.invalidSliceType) :=
  (C9_theorem envEmpty [] "li" "" (.unsupported "int") (fun h => nomatch h)).1

/-- Claim C10 (confirmed): a non-empty attribute name returns the raw
attribute value of the first node verbatim, with no trimming; trimming is
applied only in the empty-attribute (text) case. -/
theorem C10_theorem (s : Selection) (a : String) (ha : a ≠ "") :
    getDOMValue s a = (s.head?.bind fun n => n.attr a).getD ""
    ∧ getDOMValue s "" = trimSpace ((s.head?.map Node.text).getD "") := by
  constructor
  · simp [getDOMValue, ha]
  · simp [getDOMValue]

/-- Witness for C10: a padded attribute value comes back verbatim with
its spaces, while the padded text comes back trimmed. -/
theorem C10_witness :
    getDOMValue [nodeHello] "class" = " c1 "
    ∧ getDOMValue [nodeHello] "" = "Hello" := by
  have h := C10_theorem [nodeHello] "class" (by decide)
  exact ⟨h.1.trans (by decide), h.2.trans (by decide)⟩

end Colly
